import Mathlib

/-!
Shallow embedding of `src/main.rs` of the particle_evolution repository.

The program runs two execution contexts: a driver (winit event loop, the
presentation side, `main`) and a worker (`simulation_loop`) connected by two
crossbeam `bounded(1)` channels and a lock-guarded shared event vector.
Bytes (`u8`) are modelled as `Nat`, with `% 256` written explicitly where the
source casts; `Vec<u8>` is `List Nat`; times are in milliseconds as `Nat`.
-/

namespace ParticleEvolution

/-- Winit window events, abstracted to the variants the program matches on:
`WindowEvent::KeyboardInput { .. }` (matched in `simulation_loop`),
`WindowEvent::CloseRequested` (matched in the driver's event handler), and a
catch-all for every other variant. A `Nat` payload keeps distinct events
distinguishable, standing for the variant's fields. -/
inductive WindowEvent where
  | keyboardInput (payload : Nat)
  | closeRequested
  | other (payload : Nat)
deriving DecidableEq, Repr

/-- `enum SimulationToMainMessage { DrawRequest(Vec<u8>), Terminate }`
(main.rs lines 17-20): messages flowing worker → driver. -/
inductive SimulationToMainMessage where
  | drawRequest (frame : List Nat)
  | terminate
deriving DecidableEq, Repr

/-- `enum MainToSimulationMessage { Events(Vec<WindowEvent>) }`
(main.rs lines 23-25): messages flowing driver → worker. Note that this
direction has no terminate variant. -/
inductive MainToSimulationMessage where
  | events (evs : List WindowEvent)
deriving DecidableEq, Repr

/-- A crossbeam `bounded(1)` channel (main.rs lines 32-33): a single slot that
is either empty or holds one pending unread message. -/
structure Mailbox (M : Type) where
  slot : Option M
deriving DecidableEq, Repr

/-- Result of a non-blocking send, mirroring crossbeam's
`try_send : Result<(), TrySendError<T>>`: on a full channel the message is
handed back to the caller inside the error. -/
inductive TrySendResult (M : Type) where
  | ok
  | full (msg : M)
deriving DecidableEq, Repr

/-- Non-blocking send on a `bounded(1)` channel: deliver into the empty slot,
or reject and return the message when a pending message is unread. -/
def trySend {M : Type} (mb : Mailbox M) (msg : M) : Mailbox M × TrySendResult M :=
  match mb.slot with
  | none => (⟨some msg⟩, TrySendResult.ok)
  | some _ => (mb, TrySendResult.full msg)

/-- Non-blocking receive on a `bounded(1)` channel: take the pending message
out of the slot if there is one. -/
def tryRecv {M : Type} (mb : Mailbox M) : Mailbox M × Option M :=
  match mb.slot with
  | some m => (⟨none⟩, some m)
  | none => (mb, none)

/-- Whether crossbeam's blocking `Sender::send` must wait before delivering:
on a `bounded(1)` channel, `send` blocks while a pending message occupies the
slot. This is the operation the driver uses for the shutdown Terminate at
main.rs line 97 (`let _ = sim_to_main_tx.send(...)`). -/
def blockingSendWaits {M : Type} (mb : Mailbox M) : Bool :=
  mb.slot.isSome

/-- Frame width, `let width = 640` in `simulate_frame` (main.rs line 174);
also the width passed to `Pixels::new(640, 480, ...)` at line 50. -/
def width : Nat := 640

/-- Frame height, `let height = 480` in `simulate_frame` (main.rs line 175);
also the height passed to `Pixels::new` at line 50. -/
def height : Nat := 480

/-- `simulate_frame(frame_number)` (main.rs lines 171-192). The source
allocates `vec![0; width*height*4]` and then, for `y in 0..height` and
`x in 0..width`, writes the four bytes R,G,B,A at indices
`(y*width+x)*4 .. +3`. Those writes hit the indices `0..width*height*4`
exactly once each, in increasing contiguous order, so the resulting byte
sequence is exactly the row-major concatenation of the four-byte pixels
built here. The `u8` casts are the explicit `% 256`. (Lines 177-178 of the
source bind unused dead values and contribute nothing to the buffer.) -/
def simulate_frame (frame_number : Nat) : List Nat :=
  (List.range height).flatMap (fun y =>
    (List.range width).flatMap (fun x =>
      [x % 256, y % 256, frame_number % 256, 255]))

/-! Helper lemmas about `flatMap` over `List.range` with uniform block
length, used to address individual bytes of a frame. -/

theorem length_flatMap_range_const {g : Nat → List Nat} {L : Nat}
    (hg : ∀ i, (g i).length = L) (n : Nat) :
    ((List.range n).flatMap g).length = n * L := by
  induction n with
  | zero => simp
  | succ k ih =>
    rw [List.range_succ, List.flatMap_append, List.length_append, ih]
    simp [hg, Nat.succ_mul]

theorem getElem?_flatMap_range_const {g : Nat → List Nat} {L : Nat}
    (hg : ∀ i, (g i).length = L) {n i j : Nat} (hi : i < n) (hj : j < L) :
    ((List.range n).flatMap g)[i * L + j]? = (g i)[j]? := by
  induction n with
  | zero => omega
  | succ k ih =>
    rw [List.range_succ, List.flatMap_append]
    rcases Nat.lt_or_ge i k with hik | hik
    · rw [List.getElem?_append_left, ih hik]
      calc i * L + j < i * L + L := by omega
        _ = (i + 1) * L := by ring
        _ ≤ k * L := Nat.mul_le_mul_right L hik
        _ = ((List.range k).flatMap g).length := (length_flatMap_range_const hg k).symm
    · have hieq : i = k := by omega
      subst hieq
      rw [List.getElem?_append_right (by rw [length_flatMap_range_const hg]; omega)]
      simp [length_flatMap_range_const hg]

theorem simulate_frame_row_length (frame_number i : Nat) :
    ((List.range width).flatMap (fun x =>
      [x % 256, i % 256, frame_number % 256, 255])).length = width * 4 :=
  length_flatMap_range_const
    (g := fun x => [x % 256, i % 256, frame_number % 256, 255]) (L := 4)
    (fun _ => rfl) width

theorem simulate_frame_length (frame_number : Nat) :
    (simulate_frame frame_number).length = width * height * 4 := by
  unfold simulate_frame
  rw [length_flatMap_range_const (L := width * 4)
    (simulate_frame_row_length frame_number) height]
  unfold width height
  norm_num

theorem simulate_frame_alpha (frame_number x y : Nat)
    (hx : x < width) (hy : y < height) :
    (simulate_frame frame_number)[4 * (y * width + x) + 3]? = some 255 := by
  unfold simulate_frame
  have hidx : 4 * (y * width + x) + 3 = y * (width * 4) + (x * 4 + 3) := by ring
  rw [hidx, getElem?_flatMap_range_const (L := width * 4)
    (simulate_frame_row_length frame_number) hy (by
      have := Nat.mul_le_mul_right 4 (Nat.succ_le_of_lt hx)
      omega)]
  rw [getElem?_flatMap_range_const
    (g := fun x => [x % 256, y % 256, frame_number % 256, 255]) (L := 4)
    (fun _ => rfl) hx (by omega)]
  rfl

/-- The worker's wall-clock budget: `start_time.elapsed() > Duration::from_secs(60)`
(main.rs line 161), in milliseconds. -/
def budget_ms : Nat := 60000

/-- The fixed per-iteration sleep: `std::thread::sleep(Duration::from_millis(16))`
(main.rs line 158). -/
def tick_ms : Nat := 16

/-- The worker's loop-local state in `simulation_loop` (main.rs lines 128-129):
the delivered-frame counter `frame_count` and the wall-clock time elapsed
since `start_time`, in milliseconds. -/
structure SimLoopState where
  frame_count : Nat
  elapsed_ms : Nat
deriving DecidableEq, Repr

/-- The classes of event handlers the worker's dispatch can enter. The match
at main.rs lines 136-141 has exactly one handling arm, for
`WindowEvent::KeyboardInput { .. }`. -/
inductive HandlerClass where
  | keyboard
deriving DecidableEq, Repr

/-- Which handler arm the worker's `match event` (main.rs lines 136-141)
dispatches a given event to: the keyboard arm for `KeyboardInput`, and no
handler (the ignoring `_ => {}` arm) for everything else. -/
def dispatch_class (e : WindowEvent) : Option HandlerClass :=
  match e with
  | WindowEvent.keyboardInput _ => some HandlerClass.keyboard
  | _ => none

/-- The sequence of handler dispatches the worker performs for a batch:
one entry per event that reaches a handling arm. -/
def dispatched_handlers (evs : List WindowEvent) : List HandlerClass :=
  evs.filterMap dispatch_class

/-- Processing of one received event by the worker (main.rs lines 136-141):
the `KeyboardInput` arm's body is an empty placeholder comment, and the
catch-all arm is empty, so no event changes the worker's state. -/
def process_event (s : SimLoopState) (e : WindowEvent) : SimLoopState :=
  match e with
  | WindowEvent.keyboardInput _ => s
  | _ => s

/-- `for event in events { ... }` (main.rs lines 135-142): the worker folds
`process_event` over the batch in list order. -/
def process_events (s : SimLoopState) (evs : List WindowEvent) : SimLoopState :=
  evs.foldl process_event s

/-- The order in which the worker's `for event in events` loop visits the
events of a batch, collected front to back. -/
def process_events_trace (evs : List WindowEvent) : List WindowEvent :=
  evs.foldl (fun visited e => visited ++ [e]) []

/-- The state a single worker iteration acts on: the two channel endpoints it
touches plus its loop-local state. -/
structure SimIterState where
  mtos : Mailbox MainToSimulationMessage
  stom : Mailbox SimulationToMainMessage
  sim : SimLoopState
deriving DecidableEq, Repr

/-- One iteration of `simulation_loop` (main.rs lines 131-167): (a) poll the
inbound mailbox and process a received event batch; (b) compute
`simulate_frame(frame_count)`; (c) try a non-blocking send of the frame,
advancing `frame_count` only on `Ok` (on `Err` the frame is dropped with a
diagnostic); (d) sleep 16 ms — `d` is the wall-clock time the iteration
consumed, at least `tick_ms` because of the sleep. The returned `Bool` is
whether the loop `break`s afterwards, i.e. whether
`start_time.elapsed() > 60 s` held at the check on line 161. -/
def sim_iteration (d : Nat) (st : SimIterState) : SimIterState × Bool :=
  let polled := tryRecv st.mtos
  let s1 := match polled.2 with
    | some (MainToSimulationMessage.events evs) => process_events st.sim evs
    | none => st.sim
  let frame_data := simulate_frame s1.frame_count
  let sent := trySend st.stom (SimulationToMainMessage.drawRequest frame_data)
  let s2 := match sent.2 with
    | TrySendResult.ok => { s1 with frame_count := s1.frame_count + 1 }
    | TrySendResult.full _ => s1
  let s3 : SimLoopState := { s2 with elapsed_ms := s2.elapsed_ms + d }
  (⟨polled.1, sent.1, s3⟩, decide (s3.elapsed_ms > budget_ms))

/-- The worker's loop-local state at entry to `simulation_loop`
(main.rs lines 128-129): `frame_count = 0`, no time elapsed yet. -/
def sim_initial : SimLoopState :=
  ⟨0, 0⟩

/-- Iterating `simulation_loop` while the environment leaves both channels
alone between iterations (the presentation side neither drains the frame
mailbox nor pushes events). `ds` lists the wall-clock duration of each
iteration; the `Bool` says whether the loop has exited by the end of `ds`. -/
def sim_steps (ds : List Nat) (st : SimIterState) : SimIterState × Bool :=
  match ds with
  | [] => (st, false)
  | d :: rest =>
    let step := sim_iteration d st
    if step.2 then (step.1, true) else sim_steps rest step.1

/-- The cross-thread shared state the driver's window-event handler touches
(main.rs lines 58-79): the lock-guarded event accumulator
`shared_state.events` and the two channels. -/
structure GlobalState where
  events_acc : List WindowEvent
  mtos : Mailbox MainToSimulationMessage
  stom : Mailbox SimulationToMainMessage
deriving DecidableEq, Repr

/-- The atomic shared-state operations the simulation thread can perform, as
they act on the shared state: polling the inbound event channel
(main.rs line 133) and try-sending a computed frame (main.rs line 149).
Nothing in `simulation_loop` reads or writes `shared_state.events`. -/
inductive SimAction where
  | pollEvents
  | sendFrame (frame_number : Nat)
deriving DecidableEq, Repr

/-- Effect of one simulation-thread action on the shared state. -/
def applySimAction (g : GlobalState) (a : SimAction) : GlobalState :=
  match a with
  | SimAction.pollEvents => { g with mtos := (tryRecv g.mtos).1 }
  | SimAction.sendFrame n =>
    { g with stom :=
      (trySend g.stom (SimulationToMainMessage.drawRequest (simulate_frame n))).1 }

/-- The driver's handler for one `Event::WindowEvent` (main.rs lines 58-79):
push the event into the accumulator under the lock; forward a clone of the
accumulator with a non-blocking send (a rejection only logs); clear the
accumulator; finally request exit when the event is `CloseRequested`. The
returned `Bool` is whether `control_flow` was set to `Exit`. -/
def handle_window_event (g : GlobalState) (e : WindowEvent) : GlobalState × Bool :=
  let acc1 := g.events_acc ++ [e]
  let sent := trySend g.mtos (MainToSimulationMessage.events acc1)
  let exitRequested := match e with
    | WindowEvent.closeRequested => true
    | _ => false
  ({ events_acc := [], mtos := sent.1, stom := g.stom }, exitRequested)

/-- Appending a sequence of events to the accumulator in arrival order, one
`events.push(event.clone())` (main.rs line 62) per event. -/
def append_all (g : GlobalState) (es : List WindowEvent) : GlobalState :=
  es.foldl (fun s e => { s with events_acc := s.events_acc ++ [e] }) g

/-- Length of the presentation pixel buffer: `Pixels::new(640, 480, ...)`
(main.rs line 50) allocates a frame of `width * height * 4` bytes. -/
def pixels_buffer_len : Nat := 640 * 480 * 4

/-- `pixels_frame.copy_from_slice(&frame_data)` (main.rs line 87):
`copy_from_slice` requires the source and destination to have equal length
and panics otherwise; `none` models the panic. -/
def copy_from_slice (dst src : List Nat) : Option (List Nat) :=
  if src.length = dst.length then some src else none

/-- The driver's `Event::MainEventsCleared` arm (main.rs lines 81-94):
non-blockingly poll the frame channel; if a `DrawRequest` is pending, copy
its payload over the pixel buffer (and render). Other poll outcomes leave
the buffer alone. The second component is the pixel buffer afterwards,
`none` if the copy panicked. -/
def main_events_cleared (stom : Mailbox SimulationToMainMessage)
    (pixels_frame : List Nat) :
    Mailbox SimulationToMainMessage × Option (List Nat) :=
  let polled := tryRecv stom
  match polled.2 with
  | some (SimulationToMainMessage.drawRequest frame_data) =>
    (polled.1, copy_from_slice pixels_frame frame_data)
  | _ => (polled.1, some pixels_frame)

/-- Invariant of the worker → driver channel: every pending `DrawRequest`
payload was produced by `simulate_frame`. -/
def frame_mb_inv (mb : Mailbox SimulationToMainMessage) : Prop :=
  ∀ f : List Nat, mb.slot = some (SimulationToMainMessage.drawRequest f) →
    ∃ n : Nat, f = simulate_frame n

/-! Helper lemmas about the worker iteration. -/

theorem process_event_id (s : SimLoopState) (e : WindowEvent) :
    process_event s e = s := by
  cases e <;> rfl

theorem process_events_id (s : SimLoopState) (evs : List WindowEvent) :
    process_events s evs = s := by
  induction evs generalizing s with
  | nil => rfl
  | cons e rest ih => simp [process_events, List.foldl_cons, process_event_id,
      ih s, process_events] at ih ⊢; exact ih s

theorem sim_iteration_sim (d : Nat) (st : SimIterState) :
    ((sim_iteration d st).1).sim =
      { frame_count := st.sim.frame_count +
          (match st.stom.slot with | none => 1 | some _ => 0),
        elapsed_ms := st.sim.elapsed_ms + d } := by
  cases hm : st.mtos.slot with
  | none =>
    cases hs : st.stom.slot <;>
      simp [sim_iteration, tryRecv, trySend, hm, hs]
  | some m =>
    cases m with
    | events evs =>
      cases hs : st.stom.slot <;>
        simp [sim_iteration, tryRecv, trySend, hm, hs, process_events_id]

theorem sim_iteration_exit (d : Nat) (st : SimIterState) :
    (sim_iteration d st).2 = decide (st.sim.elapsed_ms + d > budget_ms) := by
  have h := sim_iteration_sim d st
  cases hm : st.mtos.slot with
  | none =>
    cases hs : st.stom.slot <;>
      simp [sim_iteration, tryRecv, trySend, hm, hs]
  | some m =>
    cases m with
    | events evs =>
      cases hs : st.stom.slot <;>
        simp [sim_iteration, tryRecv, trySend, hm, hs, process_events_id]

theorem sim_iteration_stom_of_full (d : Nat) (st : SimIterState)
    (m : SimulationToMainMessage) (h : st.stom.slot = some m) :
    ((sim_iteration d st).1).stom = st.stom := by
  cases hm : st.mtos.slot with
  | none => simp [sim_iteration, tryRecv, trySend, hm, h]
  | some msg =>
    cases msg with
    | events evs => simp [sim_iteration, tryRecv, trySend, hm, h]

theorem sim_steps_frozen (ds : List Nat) (st : SimIterState)
    (m : SimulationToMainMessage) (h : st.stom.slot = some m) :
    ((sim_steps ds st).1).sim.frame_count = st.sim.frame_count ∧
    ((sim_steps ds st).1).stom = st.stom := by
  induction ds generalizing st with
  | nil => exact ⟨rfl, rfl⟩
  | cons d rest ih =>
    have hsim := sim_iteration_sim d st
    have hstom := sim_iteration_stom_of_full d st m h
    have hcount : ((sim_iteration d st).1).sim.frame_count = st.sim.frame_count := by
      rw [hsim, h]
      rfl
    by_cases hex : (sim_iteration d st).2
    · simp [sim_steps, hex, hcount, hstom]
    · have ihres := ih (sim_iteration d st).1 (by rw [hstom]; exact h)
      simp only [sim_steps, hex, if_false, Bool.false_eq_true]
      rw [ihres.1, ihres.2, hcount, hstom]
      exact ⟨rfl, rfl⟩

theorem sim_steps_no_exit (ds : List Nat) (st : SimIterState)
    (h : st.sim.elapsed_ms + ds.sum ≤ budget_ms) :
    (sim_steps ds st).2 = false := by
  induction ds generalizing st with
  | nil => rfl
  | cons d rest ih =>
    have hsum : d + rest.sum = (d :: rest).sum := by simp
    have hstep : (sim_iteration d st).2 = false := by
      rw [sim_iteration_exit]
      simp only [decide_eq_false_iff_not, not_lt]
      omega
    have helapsed : ((sim_iteration d st).1).sim.elapsed_ms =
        st.sim.elapsed_ms + d := by
      rw [sim_iteration_sim]
    simp only [sim_steps, hstep, Bool.false_eq_true, if_false]
    exact ih (sim_iteration d st).1 (by rw [helapsed]; simp at h ⊢; omega)

theorem foldl_snoc_eq (l acc : List WindowEvent) :
    (l.foldl (fun visited e => visited ++ [e]) acc) = acc ++ l := by
  induction l generalizing acc with
  | nil => simp
  | cons x xs ih => simp [List.foldl_cons, ih]

theorem process_events_trace_eq (evs : List WindowEvent) :
    process_events_trace evs = evs := by
  simpa [process_events_trace] using foldl_snoc_eq evs []

theorem applySimAction_events_acc (g : GlobalState) (a : SimAction) :
    (applySimAction g a).events_acc = g.events_acc := by
  cases a <;> rfl

theorem append_all_events_acc (g : GlobalState) (es : List WindowEvent) :
    (append_all g es).events_acc = g.events_acc ++ es ∧
    (append_all g es).mtos = g.mtos ∧ (append_all g es).stom = g.stom := by
  induction es generalizing g with
  | nil => simp [append_all]
  | cons e rest ih =>
    have := ih { g with events_acc := g.events_acc ++ [e] }
    simpa [append_all, List.foldl_cons] using this

theorem foldl_applySimAction_events_acc (mids : List SimAction) (g : GlobalState) :
    (mids.foldl applySimAction g).events_acc = g.events_acc := by
  induction mids generalizing g with
  | nil => rfl
  | cons a rest ih =>
    rw [List.foldl_cons, ih, applySimAction_events_acc]

/-! The claim theorems. -/

/-- Claim C1: the claim states that the worker exits its loop when a poll of
its inbound mailbox yields a Terminate sentinel, and that it checks for
Terminate between iterations. In the code the worker's inbound message type
`MainToSimulationMessage` has only the `Events` constructor — no Terminate
sentinel can ever arrive — and the iteration's exit decision depends solely
on the wall-clock budget check, never on any received message. (The driver's
shutdown code at main.rs line 97 sends `SimulationToMainMessage::Terminate`
into the worker → driver channel, which the worker only writes to.) -/
theorem sim_loop_has_no_terminate_path :
    (∀ m : MainToSimulationMessage,
      ∃ evs : List WindowEvent, m = MainToSimulationMessage.events evs) ∧
    (∀ (d : Nat) (st : SimIterState),
      (sim_iteration d st).2 = decide (st.sim.elapsed_ms + d > budget_ms)) := by
  constructor
  · intro m
    cases m with
    | events evs => exact ⟨evs, rfl⟩
  · exact sim_iteration_exit

/-- Claim C2: the claim states that the shutdown-time Terminate send is
non-blocking and that send-then-join returns within one iteration interval
plus epsilon. In the code the send at main.rs line 97 is a blocking
`Sender::send` on the `bounded(1)` worker → driver channel, so it must wait
whenever a frame is pending there; and since the worker never observes a
Terminate (see C1), the join cannot return before the worker's 60 s budget
runs out: the loop is still running after any amount of iteration time
totalling at most `budget_ms`, which vastly exceeds one 16 ms interval. -/
theorem shutdown_send_blocks_and_join_waits_for_budget :
    (∀ m : SimulationToMainMessage,
      blockingSendWaits (Mailbox.mk (some m)) = true) ∧
    (∀ (ds : List Nat) (st : SimIterState),
      st.sim.elapsed_ms + ds.sum ≤ budget_ms → (sim_steps ds st).2 = false) := by
  constructor
  · intro m
    rfl
  · exact sim_steps_no_exit

/-- Claim C2 witness: with a frame pending, the shutdown send must wait; and
after two 16 ms iterations from the worker's initial state the loop has not
exited, so the join is still pending well past one interval. -/
theorem shutdown_send_blocks_witness :
    blockingSendWaits (Mailbox.mk (some SimulationToMainMessage.terminate)) = true ∧
    (sim_steps [16, 16] ⟨Mailbox.mk none, Mailbox.mk none, sim_initial⟩).2 = false :=
  ⟨shutdown_send_blocks_and_join_waits_for_budget.1 SimulationToMainMessage.terminate,
   shutdown_send_blocks_and_join_waits_for_budget.2 [16, 16]
     ⟨Mailbox.mk none, Mailbox.mk none, sim_initial⟩ (by decide)⟩

/-- Claim C3: the delivered-frame counter starts at 0; an iteration advances
it by one exactly when the outbound slot was free (the non-blocking send is
accepted) and leaves it unchanged when a pending frame causes rejection; and
from any state in which a frame sits undelivered in the slot and the
receiver never drains, the counter is frozen for the whole run while the
loop keeps iterating as long as the budget has not elapsed. -/
theorem frame_counter_only_advances_on_accepted_sends :
    sim_initial.frame_count = 0 ∧
    (∀ (d : Nat) (st : SimIterState),
      ((sim_iteration d st).1).sim.frame_count =
        st.sim.frame_count +
          (match st.stom.slot with | none => 1 | some _ => 0)) ∧
    (∀ (ds : List Nat) (st : SimIterState) (m : SimulationToMainMessage),
      st.stom.slot = some m →
        ((sim_steps ds st).1).sim.frame_count = st.sim.frame_count) ∧
    (∀ (ds : List Nat) (st : SimIterState),
      st.sim.elapsed_ms + ds.sum ≤ budget_ms →
        (sim_steps ds st).2 = false) := by
  refine ⟨rfl, ?_, ?_, sim_steps_no_exit⟩
  · intro d st
    rw [sim_iteration_sim]
  · intro ds st m h
    exact (sim_steps_frozen ds st m h).1

/-- Claim C3 witness: a worker that already has an undelivered frame in the
outbound slot runs three further iterations with its counter frozen at 5,
and the loop has not exited. -/
theorem frame_counter_frozen_witness :
    ((sim_steps [16, 16, 16]
      ⟨Mailbox.mk none,
       Mailbox.mk (some (SimulationToMainMessage.drawRequest (simulate_frame 4))),
       ⟨5, 80⟩⟩).1).sim.frame_count = 5 ∧
    (sim_steps [16, 16, 16]
      ⟨Mailbox.mk none,
       Mailbox.mk (some (SimulationToMainMessage.drawRequest (simulate_frame 4))),
       ⟨5, 80⟩⟩).2 = false :=
  ⟨frame_counter_only_advances_on_accepted_sends.2.2.1 [16, 16, 16] _
     (SimulationToMainMessage.drawRequest (simulate_frame 4)) rfl,
   frame_counter_only_advances_on_accepted_sends.2.2.2 [16, 16, 16] _ (by decide)⟩

/-- Claim C4: for the configured width 640 and height 480, every frame the
generator produces has exactly 640*480*4 = 1228800 bytes, and the byte at
index 4*(y*640+x)+3 — the alpha channel of pixel (x, y) — is 255. -/
theorem frame_size_and_alpha (n x y : Nat) (hx : x < 640) (hy : y < 480) :
    (simulate_frame n).length = 1228800 ∧
    (simulate_frame n)[4 * (y * 640 + x) + 3]? = some 255 := by
  constructor
  · rw [simulate_frame_length]
    rfl
  · exact simulate_frame_alpha n x y hx hy

/-- Claim C4 witness: the frame for tick 0 has 1228800 bytes and carries
alpha 255 at pixel (0, 0). -/
theorem frame_size_and_alpha_witness :
    (simulate_frame 0).length = 1228800 ∧
    (simulate_frame 0)[4 * (0 * 640 + 0) + 3]? = some 255 :=
  frame_size_and_alpha 0 0 0 (by decide) (by decide)

/-- Claim C5: on a capacity-1 mailbox holding a pending unread message, a
second non-blocking send is rejected with the message handed back to the
caller (an observable failure), the mailbox is left exactly as it was — the
rejected message is neither queued nor overwrites the slot — and the pending
first message is still retrievable unchanged. -/
theorem mailbox_second_send_rejected (M : Type) (m1 m2 : M) :
    trySend (Mailbox.mk (some m1)) m2 =
      (Mailbox.mk (some m1), TrySendResult.full m2) ∧
    tryRecv (Mailbox.mk (some m1)) = (Mailbox.mk none, some m1) :=
  ⟨rfl, rfl⟩

/-- Claim C6: between the snapshot read that builds a forwarded batch
(main.rs line 67) and the clear (main.rs line 73), the only actions the
other execution context can take are the simulation thread's channel
operations, and none of them appends to the event accumulator; so at the
moment of the clear the accumulator still holds exactly the snapshotted
batch, the single clear removes exactly the forwarded events, and no event
is both forwarded and left behind. -/
theorem event_accumulator_snapshot_clear_atomic (g : GlobalState)
    (e : WindowEvent) (mids : List SimAction) :
    (∀ (a : SimAction) (h : GlobalState),
      (applySimAction h a).events_acc = h.events_acc) ∧
    (mids.foldl applySimAction
      { events_acc := g.events_acc ++ [e],
        mtos := (trySend g.mtos
          (MainToSimulationMessage.events (g.events_acc ++ [e]))).1,
        stom := g.stom }).events_acc = g.events_acc ++ [e] :=
  ⟨fun a h => applySimAction_events_acc h a,
   foldl_applySimAction_events_acc mids _⟩

/-- Claim C7: events appended to the empty accumulator in arrival order and
forwarded together reach the worker as one batch holding exactly those
events in that order, and the worker's loop visits them in that order. -/
theorem event_batch_preserves_order (es : List WindowEvent) (g : GlobalState)
    (hacc : g.events_acc = []) (hmb : g.mtos.slot = none) :
    (append_all g es).events_acc = es ∧
    (trySend (append_all g es).mtos
      (MainToSimulationMessage.events (append_all g es).events_acc)).1.slot =
      some (MainToSimulationMessage.events es) ∧
    (tryRecv (trySend (append_all g es).mtos
      (MainToSimulationMessage.events (append_all g es).events_acc)).1).2 =
      some (MainToSimulationMessage.events es) ∧
    process_events_trace es = es := by
  obtain ⟨h1, h2, _⟩ := append_all_events_acc g es
  have hacc' : (append_all g es).events_acc = es := by rw [h1, hacc]; simp
  have hmb' : (append_all g es).mtos.slot = none := by rw [h2, hmb]
  have hsend : (trySend (append_all g es).mtos
      (MainToSimulationMessage.events (append_all g es).events_acc)).1 =
      Mailbox.mk (some (MainToSimulationMessage.events es)) := by
    rcases hm : (append_all g es).mtos with ⟨slot⟩
    rw [hm] at hmb'
    simp at hmb'
    subst hmb'
    rw [hacc']
    rfl
  exact ⟨hacc', by rw [hsend], by rw [hsend]; rfl, process_events_trace_eq es⟩

/-- Claim C7 witness: three concrete events appended and forwarded together
arrive as that exact batch, in arrival order. -/
theorem event_batch_preserves_order_witness :
    (append_all ⟨[], Mailbox.mk none, Mailbox.mk none⟩
      [WindowEvent.keyboardInput 1, WindowEvent.other 2,
       WindowEvent.closeRequested]).events_acc =
      [WindowEvent.keyboardInput 1, WindowEvent.other 2,
       WindowEvent.closeRequested] ∧
    process_events_trace
      [WindowEvent.keyboardInput 1, WindowEvent.other 2,
       WindowEvent.closeRequested] =
      [WindowEvent.keyboardInput 1, WindowEvent.other 2,
       WindowEvent.closeRequested] := by
  have h := event_batch_preserves_order
    [WindowEvent.keyboardInput 1, WindowEvent.other 2, WindowEvent.closeRequested]
    ⟨[], Mailbox.mk none, Mailbox.mk none⟩ rfl rfl
  exact ⟨h.1, h.2.2.2⟩

/-- Claim C8: after the driver's window-event handler — which pushes the
event, attempts the non-blocking forward, and then clears — the event
accumulator is empty, whatever the state of the forwarding mailbox was, so
the clear happens on delivered and rejected sends alike. -/
theorem accumulator_empty_after_forward (g : GlobalState) (e : WindowEvent) :
    ((handle_window_event g e).1).events_acc = [] :=
  rfl

/-- Claim C9: the worker's event dispatch reaches a handling arm exactly for
keyboard events and ignores every other variant without dispatching any
handler; an empty batch dispatches no handler at all and leaves the worker's
state unchanged — indeed no event changes the worker's state, both handling
arms being empty. -/
theorem empty_batch_noop_keyboard_only_dispatch :
    (∀ s : SimLoopState, process_events s [] = s) ∧
    dispatched_handlers [] = [] ∧
    (∀ e : WindowEvent, dispatch_class e ≠ none ↔
      ∃ k : Nat, e = WindowEvent.keyboardInput k) ∧
    (∀ (s : SimLoopState) (e : WindowEvent), process_event s e = s) := by
  refine ⟨fun s => rfl, rfl, ?_, process_event_id⟩
  intro e
  cases e <;> simp [dispatch_class]

/-- Claim C10: the only frames ever placed in the worker → driver channel are
`simulate_frame` outputs (the empty initial channel satisfies this, every
worker iteration preserves it, and the shutdown Terminate is not a frame),
and any such frame has exactly the 640*480*4 bytes of the presentation pixel
buffer, so the `copy_from_slice` at the presentation site always has
equal-length slices and can never panic. -/
theorem received_frames_fit_pixel_buffer :
    frame_mb_inv (Mailbox.mk none) ∧
    (∀ (d : Nat) (st : SimIterState),
      frame_mb_inv st.stom → frame_mb_inv ((sim_iteration d st).1).stom) ∧
    frame_mb_inv (Mailbox.mk (some SimulationToMainMessage.terminate)) ∧
    (∀ (stom : Mailbox SimulationToMainMessage) (pb : List Nat),
      frame_mb_inv stom → pb.length = pixels_buffer_len →
      ∃ out : List Nat, (main_events_cleared stom pb).2 = some out) := by
  refine ⟨?_, ?_, ?_, ?_⟩
  · intro f hf
    simp at hf
  · intro d st hinv f hf
    cases hm : st.mtos.slot with
    | none =>
      cases hs : st.stom.slot with
      | none =>
        simp [sim_iteration, tryRecv, trySend, hm, hs] at hf
        exact ⟨_, hf.symm⟩
      | some m =>
        simp [sim_iteration, tryRecv, trySend, hm, hs] at hf
        exact hinv f (by rw [hs, ← hf])
    | some msg =>
      cases msg with
      | events evs =>
        cases hs : st.stom.slot with
        | none =>
          simp [sim_iteration, tryRecv, trySend, hm, hs] at hf
          exact ⟨_, hf.symm⟩
        | some m =>
          simp [sim_iteration, tryRecv, trySend, hm, hs] at hf
          exact hinv f (by rw [hs, ← hf])
  · intro f hf
    simp at hf
  · intro stom pb hinv hlen
    cases hs : stom.slot with
    | none => exact ⟨pb, by simp [main_events_cleared, tryRecv, hs]⟩
    | some m =>
      cases m with
      | drawRequest f =>
        obtain ⟨n, hn⟩ := hinv f hs
        refine ⟨f, ?_⟩
        have hflen : f.length = pb.length := by
          rw [hn, simulate_frame_length, hlen]
          rfl
        simp [main_events_cleared, tryRecv, hs, copy_from_slice, hflen]
      | terminate =>
        exact ⟨pb, by simp [main_events_cleared, tryRecv, hs]⟩

/-- Claim C10 witness: a channel holding the tick-0 frame satisfies the
invariant, and polling it copies into a 1228800-byte pixel buffer without a
panic. -/
theorem received_frames_fit_pixel_buffer_witness :
    ∃ out : List Nat,
      (main_events_cleared
        (Mailbox.mk (some (SimulationToMainMessage.drawRequest (simulate_frame 0))))
        (List.replicate pixels_buffer_len 0)).2 = some out :=
  received_frames_fit_pixel_buffer.2.2.2
    (Mailbox.mk (some (SimulationToMainMessage.drawRequest (simulate_frame 0))))
    (List.replicate pixels_buffer_len 0)
    (fun f hf => ⟨0, by simpa using hf.symm⟩)
    (by simp)

end ParticleEvolution
